import Mathlib

/-!
Shallow embedding of the checkpoint weight-loading engine of
`acestep/third_parts/nano-vllm/nanovllm/utils/loader.py`.

Serialized-tensor keys and parameter names are modelled as `List Char`
(Python strings).  Python's `k in s` substring test and `s.replace(k, v)`
(which replaces every non-overlapping occurrence, left to right) are
embedded as `containsSub` and `pyReplace`.  Tensors carry a shape and a
flat data payload; `torch.Tensor.copy_` is embedded as an in-place copy
that accepts any source broadcastable to the destination's shape and
raises without writing otherwise.  The model's
parameter namespace is an association list; `nn.Module.get_parameter`
and attribute lookup failures surface as `AttributeError`-tagged errors,
which are the only errors the loader's `except AttributeError` block
catches (rendering the diagnostic report) before re-raising.
-/

namespace Loader

/-- A serialized key or parameter name: a Python string as a list of chars. -/
abbrev Name := List Char

/-- Build a `Name` from a string literal (for concrete test inputs). -/
def nm (s : String) : Name := s.toList

/-- Python's `pat in s`: unanchored substring containment.
`"" in s` is `True` in Python, mirrored here. -/
def containsSub (pat : Name) : Name → Bool
  | [] => pat.isEmpty
  | s@(_ :: rest) => pat.isPrefixOf s || containsSub pat rest

/-- Left-to-right scan of `s.replace(pat, rep)`, structurally recursive
on a fuel bound so it stays kernel-computable; on a match of a nonempty
pattern the scan resumes after the matched span (non-overlapping
replacement), and consuming at least one character per step means
`s.length` fuel always suffices. -/
def pyReplaceGo (pat rep : Name) : Nat → Name → Name
  | _, [] => if pat.isEmpty then rep else []
  | 0, s => s
  | fuel + 1, c :: rest =>
    if pat.isPrefixOf (c :: rest) && !pat.isEmpty then
      rep ++ pyReplaceGo pat rep fuel ((c :: rest).drop pat.length)
    else
      (if pat.isEmpty then rep else []) ++ c :: pyReplaceGo pat rep fuel rest

/-- Python's `s.replace(pat, rep)`: replaces every non-overlapping
occurrence of `pat` in `s`, scanning left to right.  For the empty
pattern Python inserts `rep` at every position, mirrored here. -/
def pyReplace (pat rep s : Name) : Name :=
  pyReplaceGo pat rep s.length s

/-- Modelled from the spec: replacement of only the FIRST occurrence of
`pat` in `s` (the behavior §4.2 of the spec describes), kept separate
from `pyReplace` so the two can be compared.  Not code of the
repository: the source uses Python's replace-all `str.replace`. -/
def replaceFirst (pat rep : Name) : Name → Name
  | [] => if pat.isEmpty then rep else []
  | s@(c :: rest) =>
    if pat.isPrefixOf s then rep ++ s.drop pat.length
    else c :: replaceFirst pat rep rest

/-- The suffix of `s` that follows the first occurrence of `pat`
(`[]` when `pat` does not occur). -/
def afterFirst (pat : Name) : Name → Name
  | [] => []
  | s@(_ :: rest) => if pat.isPrefixOf s then s.drop pat.length else afterFirst pat rest

/-- A tensor: a shape and a flat data payload. -/
structure Tensor where
  shape : List Nat
  data : List Int
deriving DecidableEq, Repr

/-- The errors the load loop can hit for one key.  `noParam` and
`noLoader` are Python `AttributeError`s (from `model.get_parameter` and
`getattr(param, "weight_loader")`); `shapeErr` is the `RuntimeError`
raised by `torch.Tensor.copy_` on shape mismatch, which the loader's
`except AttributeError` does NOT catch. -/
inductive LoadErr where
  | noParam (pname : Name)
  | noLoader (pname : Name)
  | shapeErr (expected actual : List Nat)
deriving DecidableEq, Repr

/-- Whether an error is a Python `AttributeError` (the only class the
loader's `except` block catches and reports on). -/
def LoadErr.isAttributeError : LoadErr → Bool
  | .noParam _ => true
  | .noLoader _ => true
  | .shapeErr _ _ => false

/-- A custom loader capability attached to a parameter: receives the
parameter's storage, the incoming tensor and an optional shard id, and
returns the new storage (or fails). -/
def WeightLoader := Tensor → Tensor → Option Nat → Except LoadErr Tensor

/-- A target parameter: its backing storage plus an optional custom
loader capability (the `weight_loader` attribute). -/
structure Param where
  store : Tensor
  loader : Option WeightLoader

/-- The target model's parameter namespace, in `named_parameters` order. -/
abbrev Model := List (Name × Param)

/-- `model.get_parameter(name)`: lookup in the parameter namespace;
`none` models the `AttributeError` the call raises on a missing name. -/
def get_parameter : Model → Name → Option Param
  | [], _ => none
  | p :: rest, n => if p.1 = n then some p.2 else get_parameter rest n

/-- In-place mutation of the named parameter's storage. -/
def setParam (m : Model) (n : Name) (t : Tensor) : Model :=
  m.map (fun p => if p.1 = n then (p.1, { p.2 with store := t }) else p)

/-- Right-aligned broadcast compatibility of one dimension list into
another (both reversed, so trailing dimensions are compared first):
each source dimension must equal the destination's or be 1, and the
source may not have more dimensions than the destination. -/
def bcastDims : List Nat → List Nat → Bool
  | [], _ => true
  | _ :: _, [] => false
  | a :: as, b :: bs => (a == b || a == 1) && bcastDims as bs

/-- Whether `src` is broadcastable to the shape `dest`, torch's rule
for `Tensor.copy_`: right-align the dimensions; a source dimension must
match the destination's or be 1 (it is then expanded), and missing
leading source dimensions are treated as 1. -/
def broadcastableTo (src dest : List Nat) : Bool :=
  bcastDims src.reverse dest.reverse

/-- Every multi-index of a shape, in row-major order. -/
def allIndices : List Nat → List (List Nat)
  | [] => [[]]
  | d :: rest => (List.range d).flatMap (fun i => (allIndices rest).map (fun ix => i :: ix))

/-- The row-major flat position in a source of shape `ss` that a
destination multi-index `ix` reads under broadcasting: the index is
right-aligned onto the source dimensions, size-1 source dimensions pin
their coordinate to 0, missing leading source dimensions are dropped. -/
def srcIndex (ss : List Nat) (ix : List Nat) : Nat :=
  (List.zip ss (ix.drop (ix.length - ss.length))).foldl
    (fun acc di => acc * di.1 + (if di.1 = 1 then 0 else di.2)) 0

/-- The payload a broadcast copy writes: for equal shapes the broadcast
is the identity and the payload is transferred verbatim; otherwise each
destination element reads its broadcast source element (row-major). -/
def broadcastData (ss : List Nat) (sd : List Int) (ds : List Nat) : List Int :=
  if ss = ds then sd
  else (allIndices ds).map (fun ix => sd.getD (srcIndex ss ix) 0)

/-- `default_weight_loader`: `param.data.copy_(loaded_weight)` — an
in-place copy.  torch `copy_` accepts any source broadcastable to the
destination's shape (expanding size-1 and missing leading dimensions)
and keeps the destination's shape; a non-broadcastable source raises
without writing. -/
def default_weight_loader (param : Tensor) (loaded_weight : Tensor) : Except LoadErr Tensor :=
  if broadcastableTo loaded_weight.shape param.shape then
    .ok { shape := param.shape
          data := broadcastData loaded_weight.shape loaded_weight.data param.shape }
  else
    .error (.shapeErr param.shape loaded_weight.shape)

/-- The ordered packing-rule table `packed_modules_mapping`:
(pattern, replacement, shard id) triples in declaration order. -/
abbrev Mapping := List (Name × Name × Nat)

/-- The `for k in packed_modules_mapping: if k in weight_name: ... break`
scan: the first rule whose pattern is a substring of the key. -/
def resolveRule (mapping : Mapping) (weight_name : Name) : Option (Name × Name × Nat) :=
  mapping.find? (fun r => containsSub r.1 weight_name)

/-- The parameter name a key resolves to: `weight_name.replace(k, v)`
for the first matching rule, or the key itself (identity fallback). -/
def resolvedName (mapping : Mapping) (weight_name : Name) : Name :=
  match resolveRule mapping weight_name with
  | some (k, v, _) => pyReplace k v weight_name
  | none => weight_name

/-- The body of the per-key `try` block of `load_model`: resolve the key
through the packing table (first matching rule wins, `break`), else the
`for`-`else` identity path; look the target parameter up; dispatch to
its `weight_loader` (required in the packed branch, defaulted to
`default_weight_loader` in the identity branch). -/
def load_weight (mapping : Mapping) (m : Model) (weight_name : Name) (t : Tensor) :
    Except LoadErr Model :=
  match resolveRule mapping weight_name with
  | some (k, v, shard_id) =>
    let param_name := pyReplace k v weight_name
    match get_parameter m param_name with
    | none => .error (.noParam param_name)
    | some p =>
      match p.loader with
      | none => .error (.noLoader param_name)
      | some wl => (wl p.store t (some shard_id)).map (setParam m param_name)
  | none =>
    match get_parameter m weight_name with
    | none => .error (.noParam weight_name)
    | some p =>
      match p.loader with
      | some wl => (wl p.store t none).map (setParam m weight_name)
      | none => (default_weight_loader p.store t).map (setParam m weight_name)

/-- The diagnostic block printed by the `except AttributeError` handler:
offending key, the underlying cause, the shard file being processed,
the first 20 sorted serialized-key names with a `... and N more` count
when more than 20 exist, and likewise for the model's parameter names. -/
structure DiagnosticReport where
  offending_key : Name
  cause : LoadErr
  file : Name
  key_sample : List Name
  key_more : Option Nat
  param_sample : List Name
  param_more : Option Nat
deriving DecidableEq, Repr

/-- Python's `sorted` on strings: lexicographic (code-point) order. -/
def sortNames (l : List Name) : List Name :=
  l.insertionSort (fun a b => a ≤ b)

/-- Assemble the diagnostic report the handler renders before
re-raising: `sorted(all_weight_names)[:20]`, the `len - 20` remainder
line when `len > 20`, and the same for `model_params`. -/
def mkReport (weight_name : Name) (e : LoadErr) (file : Name)
    (all_weight_names param_names : List Name) : DiagnosticReport :=
  { offending_key := weight_name
    cause := e
    file := file
    key_sample := (sortNames all_weight_names).take 20
    key_more := if all_weight_names.length > 20 then some (all_weight_names.length - 20) else none
    param_sample := (sortNames param_names).take 20
    param_more := if param_names.length > 20 then some (param_names.length - 20) else none }

/-- One `.safetensors` shard file: its path and its key → tensor map. -/
structure ShardFile where
  path : Name
  tensors : List (Name × Tensor)

/-- `f.keys()`: the file's serialized-key inventory. -/
def ShardFile.keys (f : ShardFile) : List Name := f.tensors.map (fun e => e.1)

/-- The first pass of `load_model`: `all_weight_names` extended with
every file's keys, in file order (for error reporting only). -/
def allWeightNames (files : List ShardFile) : List Name :=
  files.flatMap ShardFile.keys

/-- A work item of the load loop: (shard file path, key, tensor). -/
abbrev Entry := Name × Name × Tensor

/-- The sequence of keys the nested `for file / for weight_name` loops
visit, each paired with its file and tensor. -/
def entriesOf (files : List ShardFile) : List Entry :=
  files.flatMap (fun f => f.tensors.map (fun e => (f.path, e.1, e.2)))

/-- The nested load loop: dispatch each key in order; on the first
failure stop, recording the file, the key, the error, and the model as
mutated so far (the source mutates parameters in place and never rolls
back). -/
def run_entries (mapping : Mapping) : List Entry → Model → Except (Name × Name × LoadErr × Model) Model
  | [], m => .ok m
  | (file, wname, t) :: rest, m =>
    match load_weight mapping m wname t with
    | .ok m2 => run_entries mapping rest m2
    | .error e => .error (file, wname, e, m)

/-- The observable outcome of `load_model`: `notFound` is the
`FileNotFoundError` raised before any parameter is looked up; `failed`
carries the partially hydrated model, the propagated error, and the
diagnostic report when one was rendered (only `AttributeError`s reach
the `except` block that renders it); `ok` is a completed load. -/
inductive LoadResult where
  | notFound
  | failed (m : Model) (e : LoadErr) (rep : Option DiagnosticReport)
  | ok (m : Model)

/-- `load_model`: check for shard files (raise `FileNotFoundError` if
none, before touching the model), gather the full cross-shard key
inventory and the parameter-name snapshot for diagnostics, then run the
load loop; an `AttributeError` renders the report before propagating,
any other error propagates bare. -/
def load_model (mapping : Mapping) (model : Model) (files : List ShardFile) : LoadResult :=
  if files.isEmpty then .notFound
  else
    let all_weight_names := allWeightNames files
    let param_names := model.map (fun p => p.1)
    match run_entries mapping (entriesOf files) model with
    | .ok m2 => .ok m2
    | .error (file, wname, e, m2) =>
      .failed m2 e
        (if e.isAttributeError then some (mkReport wname e file all_weight_names param_names)
         else none)

/-- The error a load outcome propagated, if any. -/
def LoadResult.errOf : LoadResult → Option LoadErr
  | .notFound => none
  | .failed _ e _ => some e
  | .ok _ => none

/-- The diagnostic report a load outcome rendered, if any. -/
def LoadResult.reportOf : LoadResult → Option DiagnosticReport
  | .notFound => none
  | .failed _ _ rep => rep
  | .ok _ => none

/-- The model a load outcome left behind (`none` for `notFound`, which
aborts before the parameter namespace is even consulted). -/
def LoadResult.modelOf : LoadResult → Option Model
  | .notFound => none
  | .failed m _ _ => some m
  | .ok m => some m

/-- The storage of the named parameter. -/
def storeAt (m : Model) (n : Name) : Option Tensor :=
  (get_parameter m n).map (fun p => p.store)

/-- Serializing a parameter set into one shard file: one entry per
parameter, keyed by the parameter's own name, holding its storage. -/
def serialize (m : Model) (path : Name) : ShardFile :=
  { path := path, tensors := m.map (fun p => (p.1, p.2.store)) }

/-- A concrete custom loader capability for test scenarios: it ignores
the incoming tensor and zeroes the parameter's storage, observably
different from the default loader's exact copy. -/
def zeroingLoader : WeightLoader := fun p _ _ =>
  .ok { shape := p.shape, data := p.data.map (fun _ => 0) }

/-- A concrete custom loader capability for test scenarios: it records
the shard identifier it was invoked with into the storage payload. -/
def shardTagLoader : WeightLoader := fun p t sid =>
  .ok { shape := p.shape, data := (sid.getD 0 : Int) :: t.data }

/-- Concrete target namespace for the missing-key report scenario. -/
def c8Model : Model := [(nm "alpha", ⟨⟨[1], [1]⟩, none⟩)]

/-- Concrete shard set whose only key has no matching parameter. -/
def c8Files : List ShardFile :=
  [⟨nm "f.safetensors", [(nm "layer.7.weight", ⟨[1], [2]⟩)]⟩]

/-- The report the missing-key scenario renders. -/
def c8Report : DiagnosticReport :=
  mkReport (nm "layer.7.weight") (.noParam (nm "layer.7.weight")) (nm "f.safetensors")
    (allWeightNames c8Files) (c8Model.map (fun p => p.1))

/-- Concrete two-parameter namespace for the round-trip scenario. -/
def c9Model : Model :=
  [(nm "a", ⟨⟨[1], [3]⟩, none⟩), (nm "b", ⟨⟨[2], [4, 5]⟩, none⟩)]

/-- Concrete target namespace for the partial-hydration scenario. -/
def c10Model : Model :=
  [(nm "a", ⟨⟨[1], [3]⟩, none⟩), (nm "b", ⟨⟨[1], [4]⟩, none⟩)]

/-- Concrete shard set that writes "a", then fails on "missing" before
ever reaching "b". -/
def c10Files : List ShardFile :=
  [⟨nm "f.safetensors",
    [(nm "a", ⟨[1], [9]⟩), (nm "missing", ⟨[1], [8]⟩), (nm "b", ⟨[1], [7]⟩)]⟩]

/-! ### Lemmas about the substring scan and Python replace -/

/-- The empty pattern is a substring of every key (Python `"" in s`). -/
theorem containsSub_nil (s : Name) : containsSub [] s = true := by
  cases s <;> simp [containsSub, List.isEmpty, List.isPrefixOf]

/-- A pattern that fails the substring test is nonempty. -/
theorem ne_nil_of_not_containsSub {pat s : Name} (h : containsSub pat s = false) :
    pat ≠ [] := by
  intro heq
  subst heq
  rw [containsSub_nil] at h
  exact Bool.noConfusion h

/-- A pattern that fails the substring test has `isEmpty = false`. -/
theorem isEmpty_eq_false_of_not_containsSub {pat s : Name} (h : containsSub pat s = false) :
    pat.isEmpty = false := by
  have := ne_nil_of_not_containsSub h
  cases pat <;> simp_all [List.isEmpty]

/-- Unfolding a failed substring test over a cons cell. -/
theorem not_containsSub_cons {pat : Name} {c : Char} {rest : Name}
    (h : containsSub pat (c :: rest) = false) :
    pat.isPrefixOf (c :: rest) = false ∧ containsSub pat rest = false := by
  simpa [containsSub, Bool.or_eq_false_iff] using h

/-- When the pattern occurs nowhere in `s`, the replace scan returns `s`
unchanged, for any amount of fuel. -/
theorem pyReplaceGo_of_not_containsSub {pat s : Name} (rep : Name)
    (h : containsSub pat s = false) : ∀ fuel, pyReplaceGo pat rep fuel s = s := by
  induction s with
  | nil =>
    intro fuel
    have hne : pat.isEmpty = false := by simpa [containsSub] using h
    cases fuel <;> simp [pyReplaceGo, hne]
  | cons c rest ih =>
    intro fuel
    obtain ⟨h1, h2⟩ := not_containsSub_cons h
    have hne : pat.isEmpty = false := isEmpty_eq_false_of_not_containsSub h
    cases fuel with
    | zero => rfl
    | succ fuel => simp [pyReplaceGo, h1, hne, ih h2 fuel]

/-- When the pattern occurs nowhere in `s`, Python replace is the
identity on `s`. -/
theorem pyReplace_of_not_containsSub {pat s : Name} (rep : Name)
    (h : containsSub pat s = false) : pyReplace pat rep s = s :=
  pyReplaceGo_of_not_containsSub rep h s.length

/-- With enough fuel, when the pattern does not reoccur after its first
occurrence, the replace-all scan agrees with first-occurrence-only
replacement. -/
theorem pyReplaceGo_eq_replaceFirst {pat : Name} (rep : Name) :
    ∀ fuel s, containsSub pat (afterFirst pat s) = false → s.length ≤ fuel →
      pyReplaceGo pat rep fuel s = replaceFirst pat rep s := by
  intro fuel
  induction fuel with
  | zero =>
    intro s h hf
    have : s = [] := List.eq_nil_of_length_eq_zero (Nat.le_zero.mp hf)
    subst this
    rfl
  | succ fuel ih =>
    intro s h hf
    cases s with
    | nil => rfl
    | cons c rest =>
      have hne : pat.isEmpty = false := by
        have := ne_nil_of_not_containsSub h
        cases pat <;> simp_all [List.isEmpty]
      by_cases hp : pat.isPrefixOf (c :: rest) = true
      · have hafter : afterFirst pat (c :: rest) = (c :: rest).drop pat.length := by
          simp [afterFirst, hp]
        rw [hafter] at h
        simp [pyReplaceGo, replaceFirst, hp, hne,
          pyReplaceGo_of_not_containsSub rep h fuel]
      · have hp' : pat.isPrefixOf (c :: rest) = false := Bool.eq_false_iff.mpr hp
        have hafter : afterFirst pat (c :: rest) = afterFirst pat rest := by
          simp [afterFirst, hp']
        rw [hafter] at h
        have hlen : rest.length ≤ fuel := by
          simpa using Nat.succ_le_succ_iff.mp hf
        simp [pyReplaceGo, replaceFirst, hp', hne, ih rest h hlen]

/-- When the pattern does not reoccur after its first occurrence,
Python replace-all agrees with replacing only the first occurrence. -/
theorem pyReplace_eq_replaceFirst {pat s : Name} (rep : Name)
    (h : containsSub pat (afterFirst pat s) = false) :
    pyReplace pat rep s = replaceFirst pat rep s :=
  pyReplaceGo_eq_replaceFirst rep s.length s h (Nat.le_refl _)

/-! ### Lemmas about the parameter namespace and the load loop -/

/-- Rewriting `resolvedName` when a packing rule matched. -/
theorem resolvedName_of_rule {mapping : Mapping} {w k v : Name} {sh : Nat}
    (h : resolveRule mapping w = some (k, v, sh)) :
    resolvedName mapping w = pyReplace k v w := by
  unfold resolvedName
  rw [h]

/-- Rewriting `resolvedName` on the identity fallback. -/
theorem resolvedName_of_none {mapping : Mapping} {w : Name}
    (h : resolveRule mapping w = none) : resolvedName mapping w = w := by
  unfold resolvedName
  rw [h]

/-- Dimension-wise broadcast compatibility is reflexive. -/
theorem bcastDims_refl : ∀ l : List Nat, bcastDims l l = true
  | [] => rfl
  | a :: as => by
    show ((a == a || a == 1) && bcastDims as as) = true
    rw [bcastDims_refl as]
    simp

/-- Every shape is broadcastable to itself. -/
theorem broadcastableTo_refl (s : List Nat) : broadcastableTo s s = true :=
  bcastDims_refl s.reverse

/-- A broadcast between equal shapes transfers the payload verbatim. -/
theorem broadcastData_self (s : List Nat) (d : List Int) : broadcastData s d s = d := by
  unfold broadcastData
  rw [if_pos rfl]

/-- Writing a parameter's storage changes no parameter names. -/
theorem setParam_fst (m : Model) (n : Name) (t : Tensor) :
    (setParam m n t).map (fun p => p.1) = m.map (fun p => p.1) := by
  unfold setParam
  rw [List.map_map]
  apply List.map_congr_left
  intro p _
  by_cases h : p.1 = n <;> simp [h]

/-- Writing one parameter's storage leaves every other name's lookup
unchanged. -/
theorem get_parameter_setParam_ne (m : Model) {n p : Name} (t : Tensor) (hne : n ≠ p) :
    get_parameter (setParam m p t) n = get_parameter m n := by
  induction m with
  | nil => rfl
  | cons hd tl ih =>
    by_cases h : hd.1 = p
    · have hn : hd.1 ≠ n := fun he => hne (he ▸ h)
      show get_parameter ((if hd.1 = p then (hd.1, { hd.2 with store := t }) else hd)
          :: setParam tl p t) n = (if hd.1 = n then some hd.2 else get_parameter tl n)
      rw [if_pos h]
      show (if hd.1 = n then some { hd.2 with store := t } else get_parameter (setParam tl p t) n)
          = (if hd.1 = n then some hd.2 else get_parameter tl n)
      rw [if_neg hn, if_neg hn, ih]
    · show get_parameter ((if hd.1 = p then (hd.1, { hd.2 with store := t }) else hd)
          :: setParam tl p t) n = (if hd.1 = n then some hd.2 else get_parameter tl n)
      rw [if_neg h]
      show (if hd.1 = n then some hd.2 else get_parameter (setParam tl p t) n)
          = (if hd.1 = n then some hd.2 else get_parameter tl n)
      by_cases hn : hd.1 = n
      · rw [if_pos hn, if_pos hn]
      · rw [if_neg hn, if_neg hn, ih]

/-- Writing to a name that is not in the namespace is a no-op. -/
theorem setParam_of_not_mem {m : Model} {n : Name} (t : Tensor)
    (h : n ∉ m.map (fun p => p.1)) : setParam m n t = m := by
  induction m with
  | nil => rfl
  | cons hd tl ih =>
    simp only [List.map_cons, List.mem_cons, not_or] at h
    have h1 : hd.1 ≠ n := fun he => h.1 he.symm
    show (if hd.1 = n then (hd.1, _) else hd) :: setParam tl n t = hd :: tl
    rw [if_neg h1, ih h.2]

/-- With unique names, the entry a membership fact exhibits is the one
lookup returns. -/
theorem get_parameter_of_mem {m : Model} {n : Name} {q : Param}
    (hnd : (m.map (fun p => p.1)).Nodup) (hmem : (n, q) ∈ m) :
    get_parameter m n = some q := by
  induction m with
  | nil => cases hmem
  | cons hd tl ih =>
    simp only [List.map_cons, List.nodup_cons] at hnd
    rcases List.mem_cons.mp hmem with heq | htl
    · subst heq
      show (if n = n then some q else _) = some q
      rw [if_pos rfl]
    · have hne : hd.1 ≠ n := by
        intro he
        exact hnd.1 (he ▸ (List.mem_map.mpr ⟨(n, q), htl, rfl⟩))
      show (if hd.1 = n then some hd.2 else get_parameter tl n) = some q
      rw [if_neg hne]
      exact ih hnd.2 htl

/-- With unique names, writing back a parameter's own storage is a
no-op on the whole namespace. -/
theorem setParam_store_self {m : Model} {n : Name} {q : Param}
    (hnd : (m.map (fun p => p.1)).Nodup) (hg : get_parameter m n = some q) :
    setParam m n q.store = m := by
  induction m with
  | nil => rfl
  | cons hd tl ih =>
    simp only [List.map_cons, List.nodup_cons] at hnd
    show (if hd.1 = n then (hd.1, { hd.2 with store := q.store }) else hd) :: setParam tl n q.store
        = hd :: tl
    by_cases h : hd.1 = n
    · have hq : hd.2 = q := by
        have : (if hd.1 = n then some hd.2 else get_parameter tl n) = some q := hg
        rw [if_pos h] at this
        exact Option.some.inj this
      have htl : setParam tl n q.store = tl :=
        setParam_of_not_mem _ (h ▸ hnd.1)
      rw [if_pos h, htl, ← hq]
    · have hg' : get_parameter tl n = some q := by
        have : (if hd.1 = n then some hd.2 else get_parameter tl n) = some q := hg
        rwa [if_neg h] at this
      rw [if_neg h, ih hnd.2 hg']

/-- A successful single-key dispatch only rewrites the storage of the
parameter the key resolved to. -/
theorem load_weight_ok_inv {mapping : Mapping} {m m2 : Model} {w : Name} {t : Tensor}
    (h : load_weight mapping m w t = .ok m2) :
    ∃ t2, m2 = setParam m (resolvedName mapping w) t2 := by
  unfold load_weight at h
  cases hres : resolveRule mapping w with
  | some r =>
    obtain ⟨k, v, sh⟩ := r
    rw [resolvedName_of_rule hres]
    rw [hres] at h
    simp only at h
    cases hg : get_parameter m (pyReplace k v w) with
    | none => rw [hg] at h; cases h
    | some p =>
      rw [hg] at h
      simp only at h
      cases hl : p.loader with
      | none => rw [hl] at h; simp only at h; cases h
      | some wl =>
        rw [hl] at h
        simp only at h
        cases hwl : wl p.store t (some sh) with
        | error e => rw [hwl] at h; cases h
        | ok t2 =>
          rw [hwl] at h
          simp only [Except.map] at h
          cases h
          exact ⟨t2, rfl⟩
  | none =>
    rw [resolvedName_of_none hres]
    rw [hres] at h
    simp only at h
    cases hg : get_parameter m w with
    | none => rw [hg] at h; cases h
    | some p =>
      rw [hg] at h
      simp only at h
      cases hl : p.loader with
      | some wl =>
        rw [hl] at h
        simp only at h
        cases hwl : wl p.store t none with
        | error e => rw [hwl] at h; cases h
        | ok t2 =>
          rw [hwl] at h
          simp only [Except.map] at h
          cases h
          exact ⟨t2, rfl⟩
      | none =>
        rw [hl] at h
        simp only at h
        cases hwl : default_weight_loader p.store t with
        | error e => rw [hwl] at h; cases h
        | ok t2 =>
          rw [hwl] at h
          simp only [Except.map] at h
          cases h
          exact ⟨t2, rfl⟩

/-- Frame property of a successful single-key dispatch: every parameter
other than the resolved target is untouched. -/
theorem load_weight_frame {mapping : Mapping} {m m2 : Model} {w : Name} {t : Tensor}
    (h : load_weight mapping m w t = .ok m2) :
    ∀ n, n ≠ resolvedName mapping w → get_parameter m2 n = get_parameter m n := by
  intro n hn
  obtain ⟨t2, rfl⟩ := load_weight_ok_inv h
  exact get_parameter_setParam_ne m t2 hn

/-- Decomposition of a failing load loop: the failure happened at some
entry, the model carried out is exactly the one produced by the
successful prefix, and every parameter no prefix entry resolved to is
still at its initial value. -/
theorem run_entries_error_decomp {mapping : Mapping} :
    ∀ (entries : List Entry) (m m2 : Model) (f w : Name) (e : LoadErr),
      run_entries mapping entries m = .error (f, w, e, m2) →
      ∃ pre t post,
        entries = pre ++ (f, w, t) :: post ∧
        run_entries mapping pre m = .ok m2 ∧
        load_weight mapping m2 w t = .error e ∧
        ∀ n, (∀ ent ∈ pre, n ≠ resolvedName mapping ent.2.1) →
          get_parameter m2 n = get_parameter m n := by
  intro entries
  induction entries with
  | nil => intro m m2 f w e h; cases h
  | cons ent rest ih =>
    intro m m2 f w e h
    obtain ⟨fe, we, te⟩ := ent
    unfold run_entries at h
    cases hlw : load_weight mapping m we te with
    | error e0 =>
      rw [hlw] at h
      simp only [Except.error.injEq, Prod.mk.injEq] at h
      obtain ⟨hf, hw, he, hm⟩ := h
      subst hf; subst hw; subst he; subst hm
      exact ⟨[], te, rest, rfl, rfl, hlw, fun n _ => rfl⟩
    | ok mnext =>
      rw [hlw] at h
      simp only at h
      obtain ⟨pre, t, post, hsplit, hpre, hfail, hframe⟩ := ih mnext m2 f w e h
      refine ⟨(fe, we, te) :: pre, t, post, by rw [hsplit, List.cons_append], ?_, hfail, ?_⟩
      · show (match load_weight mapping m we te with
          | .ok mm => run_entries mapping pre mm
          | .error e0 => Except.error (fe, we, e0, m)) = .ok m2
        rw [hlw]
        exact hpre
      · intro n hn
        have htail : ∀ ent ∈ pre, n ≠ resolvedName mapping ent.2.1 := fun ent hent =>
          hn ent (List.mem_cons_of_mem _ hent)
        have hhead : n ≠ resolvedName mapping we :=
          hn (fe, we, te) (List.mem_cons_self _ _)
        rw [hframe n htail, load_weight_frame hlw n hhead]

/-- Inversion of a failed `load_model`: the loop failed at some file and
key, and the diagnostic report was rendered exactly when the error was
an `AttributeError`, over the full cross-shard key inventory and the
model's parameter-name snapshot. -/
theorem load_model_failed_inv {mapping : Mapping} {model : Model} {files : List ShardFile}
    {m2 : Model} {e : LoadErr} {rep : Option DiagnosticReport}
    (h : load_model mapping model files = .failed m2 e rep) :
    ∃ f w, run_entries mapping (entriesOf files) model = .error (f, w, e, m2) ∧
      rep = (if e.isAttributeError then
        some (mkReport w e f (allWeightNames files) (model.map (fun p => p.1)))
      else none) := by
  unfold load_model at h
  by_cases hf : files.isEmpty
  · rw [if_pos hf] at h; cases h
  · rw [if_neg hf] at h
    simp only at h
    cases hr : run_entries mapping (entriesOf files) model with
    | ok mm => rw [hr] at h; simp only at h; cases h
    | error q =>
      obtain ⟨f, w, e0, mm⟩ := q
      rw [hr] at h
      simp only at h
      injection h with h1 h2 h3
      subst h1
      subst h2
      exact ⟨f, w, hr ▸ rfl, h3.symm⟩

/-- `sorted` output is sorted (lexicographic string order). -/
theorem sortNames_sorted (l : List Name) :
    (sortNames l).Sorted (fun a b : Name => a ≤ b) :=
  List.sorted_insertionSort _ l

/-- `sorted` is a permutation: the sample names come from the inventory. -/
theorem mem_sortNames {l : List Name} {x : Name} (hx : x ∈ sortNames l) : x ∈ l :=
  (List.perm_insertionSort _ l).mem_iff.mp hx

/-- Loading back each parameter's own serialized tensor through the
identity path is a no-op on the whole namespace. -/
theorem run_entries_id_writes {m : Model} (path : Name) :
    ∀ sub : List (Name × Tensor),
      (∀ e ∈ sub, ∃ q, get_parameter m e.1 = some q ∧ q.store = e.2 ∧ q.loader = none) →
      (m.map (fun p => p.1)).Nodup →
      run_entries [] (sub.map (fun e => (path, e.1, e.2))) m = .ok m := by
  intro sub
  induction sub with
  | nil => intro _ _; rfl
  | cons e rest ih =>
    intro hall hnd
    obtain ⟨q, hq, hstore, hloader⟩ := hall e (List.mem_cons_self e rest)
    have hdwl : default_weight_loader q.store e.2 = .ok e.2 := by
      rw [← hstore]
      unfold default_weight_loader
      rw [if_pos (broadcastableTo_refl q.store.shape), broadcastData_self]
    have hlw : load_weight [] m e.1 e.2 = .ok m := by
      unfold load_weight
      rw [show resolveRule [] e.1 = none from rfl]
      simp only
      rw [hq]
      simp only
      rw [hloader]
      simp only
      rw [hdwl]
      simp only [Except.map]
      rw [← hstore, setParam_store_self hnd hq]
    show (match load_weight [] m e.1 e.2 with
      | .ok mm => run_entries [] (rest.map (fun x : Name × Tensor => (path, x.1, x.2))) mm
      | .error e0 => Except.error (path, e.1, e0, m)) = .ok m
    rw [hlw]
    exact ih (fun x hx => hall x (List.mem_cons_of_mem _ hx)) hnd

/-! ### Claims -/

/-- C1 counterexample: the claim says only the FIRST occurrence of a
matching rule's pattern is replaced, every later occurrence being
preserved verbatim.  With the rule pattern "q_proj" → "qkv_proj" and the
key "a.q_proj.b.q_proj", resolution (Python `str.replace`) rewrites BOTH
occurrences, so the resolved name differs from the first-occurrence-only
replacement the claim predicts. -/
theorem C1_counterexample :
    resolvedName [(nm "q_proj", nm "qkv_proj", 0)] (nm "a.q_proj.b.q_proj")
      ≠ replaceFirst (nm "q_proj") (nm "qkv_proj") (nm "a.q_proj.b.q_proj") := by
  decide

/-- C1 (amended): for every key matching a packing rule's pattern, the
resolved target name is the key with EVERY left-to-right non-overlapping
occurrence of the pattern replaced by the rule's replacement (Python
`str.replace` semantics); this coincides with replacing only the first
occurrence exactly when the pattern does not occur again after the first
matched span. -/
theorem C1_resolution_replaces_all_occurrences
    (mapping : Mapping) (w k v : Name) (sh : Nat)
    (hres : resolveRule mapping w = some (k, v, sh)) :
    resolvedName mapping w = pyReplace k v w ∧
    (containsSub k (afterFirst k w) = false →
      resolvedName mapping w = replaceFirst k v w) := by
  refine ⟨resolvedName_of_rule hres, fun honce => ?_⟩
  rw [resolvedName_of_rule hres]
  exact pyReplace_eq_replaceFirst v honce

/-- C1 witness: instantiation at a key with a single pattern occurrence. -/
theorem C1_witness :
    resolvedName [(nm "q_proj", nm "qkv_proj", 0)] (nm "a.q_proj.weight")
        = pyReplace (nm "q_proj") (nm "qkv_proj") (nm "a.q_proj.weight") ∧
    (containsSub (nm "q_proj") (afterFirst (nm "q_proj") (nm "a.q_proj.weight")) = false →
      resolvedName [(nm "q_proj", nm "qkv_proj", 0)] (nm "a.q_proj.weight")
        = replaceFirst (nm "q_proj") (nm "qkv_proj") (nm "a.q_proj.weight")) :=
  C1_resolution_replaces_all_occurrences [(nm "q_proj", nm "qkv_proj", 0)]
    (nm "a.q_proj.weight") (nm "q_proj") (nm "qkv_proj") 0 (by decide)

/-- C4: the packing table is scanned in its declared order and the first
rule whose pattern is a substring of the key fixes both the rule used
(hence the shard identifier) and the resolved target name — no later
rule, and no identity-named parameter, can override it (the resolution
consults neither later rules nor the parameter namespace). -/
theorem C4_first_rule_in_table_order_wins
    (pre post : Mapping) (k v : Name) (sh : Nat) (w : Name)
    (hpre : ∀ r ∈ pre, containsSub r.1 w = false)
    (hk : containsSub k w = true) :
    resolveRule (pre ++ (k, v, sh) :: post) w = some (k, v, sh) ∧
    resolvedName (pre ++ (k, v, sh) :: post) w = pyReplace k v w := by
  have hfind : resolveRule (pre ++ (k, v, sh) :: post) w = some (k, v, sh) := by
    unfold resolveRule
    induction pre with
    | nil => simp [List.find?_cons, hk]
    | cons r rest ih =>
      have hr := hpre r (List.mem_cons_self r rest)
      rw [List.cons_append, List.find?_cons_of_neg _ (by simp [hr])]
      exact ih (fun x hx => hpre x (List.mem_cons_of_mem _ hx))
  exact ⟨hfind, resolvedName_of_rule hfind⟩

/-- C4 witness: a key matching both the second rule and a later rule
(and present by identity in nobody's way): the second rule wins. -/
theorem C4_witness :
    resolveRule ([(nm "up_proj", nm "gate_up", 9)] ++ (nm "q_proj", nm "qkv_proj", 1)
        :: [(nm "proj", nm "other", 2)]) (nm "l.q_proj.w") = some (nm "q_proj", nm "qkv_proj", 1) ∧
    resolvedName ([(nm "up_proj", nm "gate_up", 9)] ++ (nm "q_proj", nm "qkv_proj", 1)
        :: [(nm "proj", nm "other", 2)]) (nm "l.q_proj.w")
      = pyReplace (nm "q_proj") (nm "qkv_proj") (nm "l.q_proj.w") :=
  C4_first_rule_in_table_order_wins [(nm "up_proj", nm "gate_up", 9)]
    [(nm "proj", nm "other", 2)] (nm "q_proj") (nm "qkv_proj") 1 (nm "l.q_proj.w")
    (by decide) (by decide)

/-- C5: a key that matched a packing rule but whose computed target name
is missing from the parameter namespace fails with a resolution failure
naming the computed name; it never falls through to identity lookup of
the original key (the statement places no assumption on the original
key, which may well name an existing parameter), and the load loop
aborts there with the model exactly as it was — no write occurs. -/
theorem C5_no_identity_fallthrough
    (mapping : Mapping) (m : Model) (w : Name) (t : Tensor) (k v : Name) (sh : Nat)
    (hres : resolveRule mapping w = some (k, v, sh))
    (hmiss : get_parameter m (pyReplace k v w) = none) :
    load_weight mapping m w t = .error (.noParam (pyReplace k v w)) ∧
    ∀ (path : Name) (rest : List Entry),
      run_entries mapping ((path, w, t) :: rest) m
        = .error (path, w, .noParam (pyReplace k v w), m) := by
  have h1 : load_weight mapping m w t = .error (.noParam (pyReplace k v w)) := by
    unfold load_weight
    rw [hres]
    simp only
    rw [hmiss]
  refine ⟨h1, fun path rest => ?_⟩
  show (match load_weight mapping m w t with
    | .ok mm => run_entries mapping rest mm
    | .error e0 => Except.error (path, w, e0, m)) = _
  rw [h1]

/-- C5 witness: the original key "x.q.y" names an existing parameter,
but since it matched the rule, the absent computed name "x.Q.y" is a
failure and the identity parameter is never consulted or written. -/
theorem C5_witness :
    load_weight [(nm "q", nm "Q", 0)] [(nm "x.q.y", ⟨⟨[1], [5]⟩, none⟩)]
        (nm "x.q.y") ⟨[1], [6]⟩
      = .error (.noParam (pyReplace (nm "q") (nm "Q") (nm "x.q.y"))) ∧
    ∀ (path : Name) (rest : List Entry),
      run_entries [(nm "q", nm "Q", 0)] ((path, nm "x.q.y", (⟨[1], [6]⟩ : Tensor)) :: rest)
          [(nm "x.q.y", ⟨⟨[1], [5]⟩, none⟩)]
        = .error (path, nm "x.q.y", .noParam (pyReplace (nm "q") (nm "Q") (nm "x.q.y")),
            [(nm "x.q.y", ⟨⟨[1], [5]⟩, none⟩)]) :=
  C5_no_identity_fallthrough [(nm "q", nm "Q", 0)] [(nm "x.q.y", ⟨⟨[1], [5]⟩, none⟩)]
    (nm "x.q.y") ⟨[1], [6]⟩ (nm "q") (nm "Q") 0 (by rfl) (by rfl)

/-- C2 counterexample: the claim says an identity-resolved plan (no
shard identifier) gets the default loader's exact copy regardless of any
custom loader capability.  On a parameter that carries `zeroingLoader`,
dispatching the identity key leaves the storage zeroed, not equal to the
incoming tensor's payload the default copy would have written. -/
theorem C2_counterexample :
    ((load_weight [] [(nm "w", ⟨⟨[2], [5, 6]⟩, some zeroingLoader⟩)] (nm "w")
        ⟨[2], [7, 8]⟩).toOption.bind (fun m2 => storeAt m2 (nm "w")))
      ≠ some ⟨[2], [7, 8]⟩ := by
  decide

/-- C2 (amended): an identity-resolved plan (no shard identifier)
dispatches to the parameter's custom loader whenever one is attached
(invoked without a shard identifier); only a parameter with no custom
loader capability gets the default loader's exact in-place copy. -/
theorem C2_default_copy_only_without_capability
    (mapping : Mapping) (m : Model) (w : Name) (t : Tensor) (p : Param)
    (hres : resolveRule mapping w = none)
    (hp : get_parameter m w = some p) :
    (p.loader = none →
      load_weight mapping m w t = (default_weight_loader p.store t).map (setParam m w)) ∧
    (p.loader = none → p.store.shape = t.shape →
      load_weight mapping m w t = .ok (setParam m w ⟨p.store.shape, t.data⟩)) ∧
    (∀ wl, p.loader = some wl →
      load_weight mapping m w t = (wl p.store t none).map (setParam m w)) := by
  have hbase : load_weight mapping m w t
      = (match p.loader with
        | some wl => (wl p.store t none).map (setParam m w)
        | none => (default_weight_loader p.store t).map (setParam m w)) := by
    unfold load_weight
    rw [hres]
    simp only
    rw [hp]
  refine ⟨fun hld => ?_, fun hld hsh => ?_, fun wl hld => ?_⟩
  · rw [hbase, hld]
  · rw [hbase, hld]
    simp only
    unfold default_weight_loader
    rw [if_pos (show broadcastableTo t.shape p.store.shape = true from by
      rw [hsh]; exact broadcastableTo_refl t.shape)]
    simp only [Except.map]
    rw [hsh, broadcastData_self]
  · rw [hbase, hld]

/-- C2 witness: instantiation at a capability-free parameter with a
shape-matching tensor, where the dispatch is the default exact copy. -/
theorem C2_witness :
    ((⟨⟨[2], [5, 6]⟩, none⟩ : Param).loader = none →
      load_weight [] [(nm "w", ⟨⟨[2], [5, 6]⟩, none⟩)] (nm "w") ⟨[2], [7, 8]⟩
        = (default_weight_loader (⟨[2], [5, 6]⟩ : Tensor) ⟨[2], [7, 8]⟩).map
            (setParam [(nm "w", ⟨⟨[2], [5, 6]⟩, none⟩)] (nm "w"))) ∧
    ((⟨⟨[2], [5, 6]⟩, none⟩ : Param).loader = none →
      (⟨[2], [5, 6]⟩ : Tensor).shape = ([2] : List Nat) →
      load_weight [] [(nm "w", ⟨⟨[2], [5, 6]⟩, none⟩)] (nm "w") ⟨[2], [7, 8]⟩
        = .ok (setParam [(nm "w", ⟨⟨[2], [5, 6]⟩, none⟩)] (nm "w") ⟨[2], [7, 8]⟩)) ∧
    (∀ wl, (⟨⟨[2], [5, 6]⟩, none⟩ : Param).loader = some wl →
      load_weight [] [(nm "w", ⟨⟨[2], [5, 6]⟩, none⟩)] (nm "w") ⟨[2], [7, 8]⟩
        = (wl (⟨[2], [5, 6]⟩ : Tensor) (⟨[2], [7, 8]⟩ : Tensor) none).map
            (setParam [(nm "w", ⟨⟨[2], [5, 6]⟩, none⟩)] (nm "w"))) :=
  C2_default_copy_only_without_capability [] [(nm "w", ⟨⟨[2], [5, 6]⟩, none⟩)]
    (nm "w") ⟨[2], [7, 8]⟩ ⟨⟨[2], [5, 6]⟩, none⟩ (by rfl) (by rfl)

/-- C3 counterexample: the claim fails on two counts.  Loading a
`[4,4]` tensor into a `[4,8]` parameter (not broadcastable) propagates
the shape error with NO report — the handler catches only attribute
(resolution) errors.  And loading an `[8]` tensor into the same `[4,8]`
parameter — a differing shape the claim says must fail — does not fail
at all: `copy_` silently broadcasts it. -/
theorem C3_counterexample :
    (load_model [] [(nm "w", ⟨⟨[4, 8], []⟩, none⟩)]
        [⟨nm "model.safetensors", [(nm "w", ⟨[4, 4], []⟩)]⟩]).reportOf = none ∧
    (load_model [] [(nm "w", ⟨⟨[4, 8], []⟩, none⟩)]
        [⟨nm "model.safetensors", [(nm "w", ⟨[4, 4], []⟩)]⟩]).errOf
      = some (.shapeErr [4, 8] [4, 4]) ∧
    (load_model [] [(nm "w", ⟨⟨[4, 8], []⟩, none⟩)]
        [⟨nm "model.safetensors", [(nm "w", ⟨[8], [1, 2, 3, 4, 5, 6, 7, 8]⟩)]⟩]).errOf
      = none := by
  exact ⟨rfl, rfl, rfl⟩

/-- C3 (amended): a default-loader dispatch whose incoming tensor's
shape is NOT broadcastable to the target parameter's declared shape
fails with an error recording both shapes and leaves the whole
namespace — in particular the target parameter's prior contents —
unchanged (the carried model is the input model itself), but the
diagnostic report is NOT rendered: only attribute (resolution) failures
reach the handler that renders it, so the shape error propagates bare.
A differing-but-broadcastable incoming shape does not fail: `copy_`
silently broadcasts it into the target's storage. -/
theorem C3_shape_mismatch_fails_without_report
    (mapping : Mapping) (m : Model) (w path : Name) (t : Tensor) (p : Param)
    (hres : resolveRule mapping w = none)
    (hp : get_parameter m w = some p)
    (hld : p.loader = none) :
    (broadcastableTo t.shape p.store.shape = false →
      load_model mapping m [⟨path, [(w, t)]⟩]
        = .failed m (.shapeErr p.store.shape t.shape) none) ∧
    (broadcastableTo t.shape p.store.shape = true →
      load_model mapping m [⟨path, [(w, t)]⟩]
        = .ok (setParam m w ⟨p.store.shape, broadcastData t.shape t.data p.store.shape⟩)) := by
  have hbase : load_weight mapping m w t
      = (default_weight_loader p.store t).map (setParam m w) := by
    unfold load_weight
    rw [hres]
    simp only
    rw [hp]
    simp only
    rw [hld]
  constructor
  · intro hb
    have hlw : load_weight mapping m w t = .error (.shapeErr p.store.shape t.shape) := by
      rw [hbase]
      unfold default_weight_loader
      rw [if_neg (by simp [hb])]
      rfl
    have hrun : run_entries mapping (entriesOf [⟨path, [(w, t)]⟩]) m
        = .error (path, w, .shapeErr p.store.shape t.shape, m) := by
      show (match load_weight mapping m w t with
        | .ok mm => run_entries mapping [] mm
        | .error e0 => Except.error (path, w, e0, m)) = _
      rw [hlw]
    unfold load_model
    rw [if_neg (by simp)]
    simp only
    rw [hrun]
    rfl
  · intro hb
    have hlw : load_weight mapping m w t
        = .ok (setParam m w ⟨p.store.shape, broadcastData t.shape t.data p.store.shape⟩) := by
      rw [hbase]
      unfold default_weight_loader
      rw [if_pos hb]
      rfl
    have hrun : run_entries mapping (entriesOf [⟨path, [(w, t)]⟩]) m
        = .ok (setParam m w ⟨p.store.shape, broadcastData t.shape t.data p.store.shape⟩) := by
      show (match load_weight mapping m w t with
        | .ok mm => run_entries mapping [] mm
        | .error e0 => Except.error (path, w, e0, m)) = _
      rw [hlw]
      rfl
    unfold load_model
    rw [if_neg (by simp)]
    simp only
    rw [hrun]

/-- C3 witness: the `[4,4]`-into-`[4,8]` scenario of the spec, where
the shapes are not broadcastable and the load fails bare. -/
theorem C3_witness :
    (broadcastableTo ([4, 4] : List Nat) ([4, 8] : List Nat) = false →
      load_model [] [(nm "w", ⟨⟨[4, 8], []⟩, none⟩)]
          [⟨nm "model.safetensors", [(nm "w", ⟨[4, 4], []⟩)]⟩]
        = .failed [(nm "w", ⟨⟨[4, 8], []⟩, none⟩)] (.shapeErr [4, 8] [4, 4]) none) ∧
    (broadcastableTo ([4, 4] : List Nat) ([4, 8] : List Nat) = true →
      load_model [] [(nm "w", ⟨⟨[4, 8], []⟩, none⟩)]
          [⟨nm "model.safetensors", [(nm "w", ⟨[4, 4], []⟩)]⟩]
        = .ok (setParam [(nm "w", ⟨⟨[4, 8], []⟩, none⟩)] (nm "w")
            ⟨[4, 8], broadcastData [4, 4] [] [4, 8]⟩)) :=
  C3_shape_mismatch_fails_without_report [] [(nm "w", ⟨⟨[4, 8], []⟩, none⟩)]
    (nm "w") (nm "model.safetensors") ⟨[4, 4], []⟩ ⟨⟨[4, 8], []⟩, none⟩
    (by rfl) (by rfl) (by rfl)

/-- C6: a plan carrying a shard identifier (a key resolved through a
packing rule) requires the target parameter's custom loader capability:
if it is absent the dispatch fails — it does not fall back to the
default loader — and if present it is invoked with the parameter's
storage, the incoming tensor, and the rule's shard identifier. -/
theorem C6_shard_dispatch_requires_capability
    (mapping : Mapping) (m : Model) (w : Name) (t : Tensor) (k v : Name) (sh : Nat) (p : Param)
    (hres : resolveRule mapping w = some (k, v, sh))
    (hp : get_parameter m (pyReplace k v w) = some p) :
    (p.loader = none →
      load_weight mapping m w t = .error (.noLoader (pyReplace k v w))) ∧
    (∀ wl, p.loader = some wl →
      load_weight mapping m w t
        = (wl p.store t (some sh)).map (setParam m (pyReplace k v w))) := by
  have hbase : load_weight mapping m w t
      = (match p.loader with
        | none => .error (.noLoader (pyReplace k v w))
        | some wl => (wl p.store t (some sh)).map (setParam m (pyReplace k v w))) := by
    unfold load_weight
    rw [hres]
    simp only
    rw [hp]
  refine ⟨fun hld => ?_, fun wl hld => ?_⟩
  · rw [hbase, hld]
  · rw [hbase, hld]

/-- C6 witness: the capability (`shardTagLoader`) is present and is
invoked with the shard identifier 7 of the matching rule. -/
theorem C6_witness :
    (((⟨⟨[1], [5]⟩, some shardTagLoader⟩ : Param).loader = none →
      load_weight [(nm "q", nm "Q", 7)] [(nm "x.Q.y", ⟨⟨[1], [5]⟩, some shardTagLoader⟩)]
          (nm "x.q.y") ⟨[1], [6]⟩
        = .error (.noLoader (pyReplace (nm "q") (nm "Q") (nm "x.q.y")))) ∧
    (∀ wl, (⟨⟨[1], [5]⟩, some shardTagLoader⟩ : Param).loader = some wl →
      load_weight [(nm "q", nm "Q", 7)] [(nm "x.Q.y", ⟨⟨[1], [5]⟩, some shardTagLoader⟩)]
          (nm "x.q.y") ⟨[1], [6]⟩
        = (wl (⟨[1], [5]⟩ : Tensor) (⟨[1], [6]⟩ : Tensor) (some 7)).map
            (setParam [(nm "x.Q.y", ⟨⟨[1], [5]⟩, some shardTagLoader⟩)]
              (pyReplace (nm "q") (nm "Q") (nm "x.q.y"))))) :=
  C6_shard_dispatch_requires_capability [(nm "q", nm "Q", 7)]
    [(nm "x.Q.y", ⟨⟨[1], [5]⟩, some shardTagLoader⟩)] (nm "x.q.y") ⟨[1], [6]⟩
    (nm "q") (nm "Q") 7 ⟨⟨[1], [5]⟩, some shardTagLoader⟩ (by rfl) (by rfl)

/-- C7: a directory with zero shard files makes the load return the
`FileNotFoundError` outcome immediately: the result is `notFound`,
which is produced before the key inventory, the parameter-name
snapshot, or the load loop run, and carries no model state — no
parameter is looked up or written. -/
theorem C7_empty_directory_not_found (mapping : Mapping) (model : Model) :
    load_model mapping model [] = .notFound ∧
    (load_model mapping model []).modelOf = none := by
  exact ⟨rfl, rfl⟩

/-- C8: whenever a failed load rendered a diagnostic report, the report
carries the offending key and offending file of the failing loop step
and the underlying cause; its serialized-key sample is the first 20 of
the SORTED full cross-shard inventory (so it is sorted, bounded by 20,
and drawn from the inventory) with the remainder count `total - 20`
recorded exactly when more than 20 keys exist; and likewise for the
target-parameter-name sample. -/
theorem C8_diagnostic_report_bounded_sorted
    (mapping : Mapping) (model : Model) (files : List ShardFile)
    (m2 : Model) (e : LoadErr) (r : DiagnosticReport)
    (h : load_model mapping model files = .failed m2 e (some r)) :
    r.cause = e ∧
    (∃ fpath w, run_entries mapping (entriesOf files) model = .error (fpath, w, e, m2) ∧
      r.offending_key = w ∧ r.file = fpath) ∧
    r.key_sample = (sortNames (allWeightNames files)).take 20 ∧
    r.key_sample.length ≤ 20 ∧
    r.key_sample.Sorted (fun a b : Name => a ≤ b) ∧
    (∀ n ∈ r.key_sample, n ∈ allWeightNames files) ∧
    r.key_more = (if (allWeightNames files).length > 20
      then some ((allWeightNames files).length - 20) else none) ∧
    r.param_sample = (sortNames (model.map (fun p => p.1))).take 20 ∧
    r.param_sample.length ≤ 20 ∧
    r.param_sample.Sorted (fun a b : Name => a ≤ b) ∧
    (∀ n ∈ r.param_sample, n ∈ model.map (fun p => p.1)) ∧
    r.param_more = (if (model.map (fun p => p.1)).length > 20
      then some ((model.map (fun p => p.1)).length - 20) else none) := by
  obtain ⟨f, w, hrun, hrep⟩ := load_model_failed_inv h
  by_cases hattr : e.isAttributeError = true
  · rw [if_pos hattr] at hrep
    have hr : r = mkReport w e f (allWeightNames files) (model.map (fun p => p.1)) :=
      Option.some.inj hrep
    subst hr
    refine ⟨rfl, ⟨f, w, hrun, rfl, rfl⟩, rfl, ?_, ?_, ?_, rfl, rfl, ?_, ?_, ?_, rfl⟩
    · rw [show (mkReport w e f (allWeightNames files)
          (model.map (fun p => p.1))).key_sample
            = (sortNames (allWeightNames files)).take 20 from rfl]
      rw [List.length_take]
      exact min_le_left _ _
    · exact List.Pairwise.sublist (List.take_sublist 20 _)
        (sortNames_sorted (allWeightNames files))
    · intro n hn
      exact mem_sortNames (List.mem_of_mem_take hn)
    · rw [show (mkReport w e f (allWeightNames files)
          (model.map (fun p => p.1))).param_sample
            = (sortNames (model.map (fun p => p.1))).take 20 from rfl]
      rw [List.length_take]
      exact min_le_left _ _
    · exact List.Pairwise.sublist (List.take_sublist 20 _)
        (sortNames_sorted (model.map (fun p : Name × Param => p.1)))
    · intro n hn
      exact mem_sortNames (List.mem_of_mem_take hn)
  · rw [if_neg hattr] at hrep
    cases hrep

/-- C8 witness: the spec's own missing-key scenario, key
"layer.7.weight" with no matching rule and no identity parameter. -/
theorem C8_witness :
    c8Report.cause = .noParam (nm "layer.7.weight") ∧
    (∃ fpath w, run_entries [] (entriesOf c8Files) c8Model
        = .error (fpath, w, .noParam (nm "layer.7.weight"), c8Model) ∧
      c8Report.offending_key = w ∧ c8Report.file = fpath) ∧
    c8Report.key_sample = (sortNames (allWeightNames c8Files)).take 20 ∧
    c8Report.key_sample.length ≤ 20 ∧
    c8Report.key_sample.Sorted (fun a b : Name => a ≤ b) ∧
    (∀ n ∈ c8Report.key_sample, n ∈ allWeightNames c8Files) ∧
    c8Report.key_more = (if (allWeightNames c8Files).length > 20
      then some ((allWeightNames c8Files).length - 20) else none) ∧
    c8Report.param_sample = (sortNames (c8Model.map (fun p => p.1))).take 20 ∧
    c8Report.param_sample.length ≤ 20 ∧
    c8Report.param_sample.Sorted (fun a b : Name => a ≤ b) ∧
    (∀ n ∈ c8Report.param_sample, n ∈ c8Model.map (fun p => p.1)) ∧
    c8Report.param_more = (if (c8Model.map (fun p => p.1)).length > 20
      then some ((c8Model.map (fun p => p.1)).length - 20) else none) :=
  C8_diagnostic_report_bounded_sorted [] c8Model c8Files c8Model
    (.noParam (nm "layer.7.weight")) c8Report (by rfl)

/-- C9: hydrating a parameter set from the shard file obtained by
serializing that same parameter set (empty packing table — pure
identity mapping — and no custom loader capabilities) completes
without error and leaves every parameter bit-identical: the outcome is
`ok` with the namespace unchanged. -/
theorem C9_round_trip (m : Model) (path : Name)
    (hnd : (m.map (fun p => p.1)).Nodup)
    (hld : ∀ p ∈ m, p.2.loader = none) :
    load_model [] m [serialize m path] = .ok m := by
  have hcond : ∀ x ∈ m.map (fun p : Name × Param => (p.1, p.2.store)),
      ∃ q, get_parameter m x.1 = some q ∧ q.store = x.2 ∧ q.loader = none := by
    intro x hx
    obtain ⟨p, hp, hxe⟩ := List.mem_map.mp hx
    subst hxe
    exact ⟨p.2, get_parameter_of_mem hnd (show (p.1, p.2) ∈ m from hp), rfl, hld p hp⟩
  have hrun := run_entries_id_writes (m := m) path
    (m.map (fun p : Name × Param => (p.1, p.2.store))) hcond hnd
  unfold load_model
  rw [if_neg (by simp)]
  simp only
  have hent : entriesOf [serialize m path]
      = (m.map (fun p : Name × Param => (p.1, p.2.store))).map
          (fun x : Name × Tensor => (path, x.1, x.2)) := by
    simp only [entriesOf, serialize, List.flatMap_cons, List.flatMap_nil, List.append_nil]
  rw [hent, hrun]

/-- C9 witness: a concrete two-parameter round trip. -/
theorem C9_witness :
    load_model [] c9Model [serialize c9Model (nm "model.safetensors")] = .ok c9Model :=
  C9_round_trip c9Model (nm "model.safetensors") (by decide) (by
    intro p hp
    rcases List.mem_cons.mp hp with rfl | hp2
    · rfl
    · rcases List.mem_cons.mp hp2 with rfl | hp3
      · rfl
      · cases hp3)

/-- C10: a load that aborts on a failing key performs no rollback: the
failure happened at some entry of the visit sequence, the model left
behind is exactly the state the successful prefix produced (each
parameter dispatched before the failing key keeps the value just
written), and every parameter no prefix entry resolved to — including
the failing key's own target when no prefix entry resolved to it —
still holds its pre-load contents: the model is partially hydrated. -/
theorem C10_no_rollback
    (mapping : Mapping) (model : Model) (files : List ShardFile)
    (m2 : Model) (e : LoadErr) (rep : Option DiagnosticReport)
    (h : load_model mapping model files = .failed m2 e rep) :
    ∃ f w pre t post,
      entriesOf files = pre ++ (f, w, t) :: post ∧
      run_entries mapping pre model = .ok m2 ∧
      load_weight mapping m2 w t = .error e ∧
      ∀ n, (∀ ent ∈ pre, n ≠ resolvedName mapping ent.2.1) →
        get_parameter m2 n = get_parameter model n := by
  obtain ⟨f, w, hrun, -⟩ := load_model_failed_inv h
  obtain ⟨pre, t, post, hsplit, hpre, hfail, hframe⟩ :=
    run_entries_error_decomp (entriesOf files) model m2 f w e hrun
  exact ⟨f, w, pre, t, post, hsplit, hpre, hfail, hframe⟩

/-- C10 witness: the load writes "a", fails on "missing", leaves "b"
untouched — the carried model is the partially hydrated state. -/
theorem C10_witness :
    ∃ f w pre t post,
      entriesOf c10Files = pre ++ (f, w, t) :: post ∧
      run_entries [] pre c10Model
        = .ok [(nm "a", ⟨⟨[1], [9]⟩, none⟩), (nm "b", ⟨⟨[1], [4]⟩, none⟩)] ∧
      load_weight [] [(nm "a", ⟨⟨[1], [9]⟩, none⟩), (nm "b", ⟨⟨[1], [4]⟩, none⟩)] w t
        = .error (.noParam (nm "missing")) ∧
      ∀ n, (∀ ent ∈ pre, n ≠ resolvedName [] ent.2.1) →
        get_parameter [(nm "a", ⟨⟨[1], [9]⟩, none⟩), (nm "b", ⟨⟨[1], [4]⟩, none⟩)] n
          = get_parameter c10Model n :=
  C10_no_rollback [] c10Model c10Files
    [(nm "a", ⟨⟨[1], [9]⟩, none⟩), (nm "b", ⟨⟨[1], [4]⟩, none⟩)]
    (.noParam (nm "missing"))
    (some (mkReport (nm "missing") (.noParam (nm "missing")) (nm "f.safetensors")
      (allWeightNames c10Files) (c10Model.map (fun p => p.1))))
    (by rfl)

end Loader
